import Mathlib

/-!
# resreader: draining, closing and decoding of HTTP response bodies

A shallow embedding of `resreader.go`.  The mutable object behind `res.Body` is an explicit
state (`HttpBody`) that every operation takes and returns; code that the package receives
from its caller (parsers, decoders) and from the libraries it imports (gzip, brotli) is a
read-only interaction tree (`Prog`) over an `io.Reader`.
-/

namespace Resreader

/-! ## Go values -/

/-- One octet. -/
abbrev Byte := Nat

/-- A Go error value, identified by its message. -/
structure GoError where
  msg : String
deriving DecidableEq, Repr

/-- The Go `error` interface: `none` is `nil`. -/
abbrev error := Option GoError

/-- Sentinel `io.EOF`. -/
def EOF : GoError := ⟨"EOF"⟩

/-- Sentinel `io.ErrUnexpectedEOF`. -/
def ErrUnexpectedEOF : GoError := ⟨"unexpected EOF"⟩

/-- Sentinel `io.ErrNoProgress`. -/
def ErrNoProgress : GoError := ⟨"multiple Read calls return no data or error"⟩

/-- Sentinel `gzip.ErrHeader`. -/
def ErrHeader : GoError := ⟨"gzip: invalid header"⟩

/-- What a net/http body answers to a Read after Close. -/
def errReadOnClosedBody : GoError := ⟨"http: read on closed response body"⟩

/-- The two errors `ReadCloserFor` creates with `errors.New`. -/
def errNilResponse : GoError := ⟨"http response was nil"⟩

/-- Second of the two errors `ReadCloserFor` creates with `errors.New`. -/
def errNilBody : GoError := ⟨"http response body was nil"⟩

/-- Message of the run-time panic raised by a method call through a nil pointer or a nil
interface value. -/
def nilDereference : String := "runtime error: invalid memory address or nil pointer dereference"

/-- How a Go call ends: it returns its results, or it panics. -/
inductive Ret (α : Type) where
  | returned (a : α)
  | panicked (msg : String)
deriving DecidableEq, Repr

/-- A Go pointer: `none` is `nil`, `some a` the address `a`. -/
abbrev Ptr := Option Nat

/-! ## The response body: an `io.ReadCloser` with observable history -/

/-- A call observed on the body. -/
inductive Event where
  | read (bytes : List Byte)
  | readErr (e : GoError)
  | close
deriving DecidableEq, Repr

/-- State of the object behind `res.Body`.  `data` are the bytes not yet handed out; once
they are exhausted every Read reports `endErr` (`EOF` for a clean end, anything else is a
read fault).  `strict` says whether a Read after Close fails, as it does for net/http
bodies.  `log` is ghost state: every Read and Close performed so far, oldest first. -/
structure HttpBody where
  data : List Byte
  endErr : GoError
  closeErr : error
  strict : Bool
  closed : Bool
  log : List Event
deriving DecidableEq, Repr

/-- Method `Read(p)` of the body with `len(p) = n`: the delivered bytes and the error. -/
def HttpBody.Read (b : HttpBody) (n : Nat) : HttpBody × List Byte × error :=
  if b.closed && b.strict then
    ({ b with log := b.log ++ [Event.readErr errReadOnClosedBody] }, [], some errReadOnClosedBody)
  else if b.data = [] then
    ({ b with log := b.log ++ [Event.readErr b.endErr] }, [], some b.endErr)
  else
    ({ b with data := b.data.drop n, log := b.log ++ [Event.read (b.data.take n)] },
      b.data.take n, none)

/-- Method `Close()` of the body. -/
def HttpBody.Close (b : HttpBody) : HttpBody × error :=
  ({ b with closed := true, log := b.log ++ [Event.close] }, b.closeErr)

/-- Number of Close calls the body has seen. -/
def HttpBody.closeCalls (b : HttpBody) : Nat := b.log.count Event.close

/-- All bytes handed out by the body so far, in order. -/
def HttpBody.consumed (b : HttpBody) : List Byte :=
  (b.log.map fun e => match e with
    | Event.read bs => bs
    | _ => []).flatten

/-- A body as the HTTP client hands it over: open, nothing read yet. -/
def HttpBody.fresh (data : List Byte) (endErr : GoError) (closeErr : error) (strict : Bool) :
    HttpBody :=
  { data := data, endErr := endErr, closeErr := closeErr, strict := strict, closed := false,
    log := [] }

/-- Only Reads separate `b` from `a`: the close state, the close history and the fixed
attributes of the body are the same, and the bytes handed out followed by the bytes still
unread are the same sequence. -/
def ReadsOnly (a b : HttpBody) : Prop :=
  b.closed = a.closed ∧ b.closeCalls = a.closeCalls ∧ b.closeErr = a.closeErr ∧
    b.strict = a.strict ∧ b.endErr = a.endErr ∧ b.consumed ++ b.data = a.consumed ++ a.data

instance (a b : HttpBody) : Decidable (ReadsOnly a b) := by
  unfold ReadsOnly; infer_instance

/-! ## Code that can only call `Read` on an `io.Reader` -/

/-- A terminating computation whose only effect is calling `Read(p)` on the `io.Reader` it
was given: `read n k` issues a Read with `len(p) = n` and continues with `k` applied to the
bytes and the error it got. -/
inductive Prog (α : Type) where
  | ret (a : α)
  | read (n : Nat) (k : List Byte × error → Prog α)

/-- Run a computation against a reader with state `σ` and Read method `rd`. -/
def Prog.run {σ α : Type} (rd : σ → Nat → σ × List Byte × error) : Prog α → σ → σ × α
  | Prog.ret a, s => (s, a)
  | Prog.read n k, s => Prog.run rd (k (rd s n).2) (rd s n).1

/-- Sequencing of computations. -/
def Prog.bind {α β : Type} : Prog α → (α → Prog β) → Prog β
  | Prog.ret a, f => f a
  | Prog.read n k, f => Prog.read n fun r => Prog.bind (k r) f

/-! ## Imported libraries -/

/-- The decompressors the package imports, as far as the package uses them.  `Z` is the
state of a `*gzip.Reader`, `B` the state of a `*brotli.Reader`; both hold the body only as
an `io.Reader`, so all they can do to it is Read.
* `gzipNewReader`: `gzip.NewReader(r)`, which reads from `r` and may fail;
* `gzipRead`, `gzipClose`: methods of `*gzip.Reader` (Close does not touch `r`);
* `brotliNewReader`: `brotli.NewReader(r)`, which only allocates;
* `brotliRead`: method Read of `*brotli.Reader`. -/
structure Lib (Z B : Type) where
  gzipNewReader : Prog (Except GoError Z)
  gzipRead : Z → Nat → Prog (Z × List Byte × error)
  gzipClose : Z → error
  brotliNewReader : B
  brotliRead : B → Nat → Prog (B × List Byte × error)

/-- Dynamic type of the `io.ReadCloser` that `ReadCloserFor` returns: the body itself, a
`*gzip.Reader` over the body, or `ioutil.NopCloser` around a `*brotli.Reader` over the
body. -/
inductive ReadCloser (Z B : Type) where
  | body
  | gzip (z : Z)
  | nopCloser (b : B)

/-- Method `Read(p)` of the returned stream, `len(p) = n`, on the pair of the stream and the
body it reads from. -/
def ReadCloser.Read {Z B : Type} (lib : Lib Z B) :
    ReadCloser Z B × HttpBody → Nat → (ReadCloser Z B × HttpBody) × List Byte × error
  | (ReadCloser.body, w), n => ((ReadCloser.body, (w.Read n).1), (w.Read n).2)
  | (ReadCloser.gzip z, w), n =>
    let r := Prog.run HttpBody.Read (lib.gzipRead z n) w
    ((ReadCloser.gzip r.2.1, r.1), r.2.2)
  | (ReadCloser.nopCloser s, w), n =>
    let r := Prog.run HttpBody.Read (lib.brotliRead s n) w
    ((ReadCloser.nopCloser r.2.1, r.1), r.2.2)

/-- Method `Close()` of the returned stream. -/
def ReadCloser.Close {Z B : Type} (lib : Lib Z B) : ReadCloser Z B → HttpBody → HttpBody × error
  | ReadCloser.body, w => w.Close
  | ReadCloser.gzip z, w => (w, lib.gzipClose z)
  | ReadCloser.nopCloser _, w => (w, none)

/-- Whether the stream is the body itself rather than a reader wrapped around it. -/
def ReadCloser.isBody {Z B : Type} : ReadCloser Z B → Bool
  | ReadCloser.body => true
  | ReadCloser.gzip _ => false
  | ReadCloser.nopCloser _ => false

/-- The body `final` is what the lifecycle contract asks for after a call that started on
`w`: it is closed, it has seen exactly one more Close call than `w`, and, when `w` could
still be read, no byte is left unread and everything `w` held has been handed out. -/
def Released (w final : HttpBody) : Prop :=
  final.closed = true ∧ final.closeCalls = w.closeCalls + 1 ∧
    ((w.closed && w.strict) = false →
      final.data = [] ∧ final.consumed = w.consumed ++ w.data)

instance (w final : HttpBody) : Decidable (Released w final) := by
  unfold Released; infer_instance

/-! ## The response -/

/-- Type `http.Header`: the list of canonical keys with their values. -/
structure HttpHeader where
  entries : List (String × List String)
deriving DecidableEq, Repr

/-- Bytes allowed in a header field name (RFC 7230 token characters). -/
def validHeaderFieldByte (c : Char) : Bool :=
  c.isAlphanum ||
    [33, 35, 36, 37, 38, 39, 42, 43, 45, 46, 94, 95, 96, 124, 126].contains c.toNat

/-- Canonicalisation loop of `textproto.CanonicalMIMEHeaderKey`: upper case at the start
and after each hyphen, lower case elsewhere. -/
def canonicalLoop : Bool → List Char → List Char
  | _, [] => []
  | upper, c :: cs =>
    let d := if upper && c.isLower then c.toUpper
      else if !upper && c.isUpper then c.toLower else c
    d :: canonicalLoop (d == '-') cs

/-- Function `textproto.CanonicalMIMEHeaderKey`: a key with a byte that is not a token
character is returned as it is. -/
def CanonicalMIMEHeaderKey (s : String) : String :=
  if s.data.all validHeaderFieldByte then String.mk (canonicalLoop true s.data) else s

/-- Method `Header.Get(key)`: the first value stored under the canonical form of `key`, the
empty string when there is none. -/
def HttpHeader.Get (h : HttpHeader) (key : String) : String :=
  match h.entries.lookup (CanonicalMIMEHeaderKey key) with
  | some (v :: _) => v
  | _ => ""

/-- The fields of `http.Response` that the package uses.  `Body` is `none` for a nil
`res.Body` and `some ()` when it refers to the body object whose state is threaded through
the operations. -/
structure Response where
  Header : HttpHeader
  Body : Option Unit
deriving DecidableEq, Repr

/-! ## resreader.go -/

/-- Function `ReadCloserFor(res)`: the body state afterwards and the returned pair, an error
or the stream. -/
def ReadCloserFor {Z B : Type} (lib : Lib Z B) (res : Option Response) (w : HttpBody) :
    HttpBody × Except GoError (ReadCloser Z B) :=
  match res with
  | none => (w, Except.error errNilResponse)
  | some r =>
    match r.Body with
    | none => (w, Except.error errNilBody)
    | some _ =>
      if r.Header.Get "content-encoding" = "gzip" then
        match Prog.run HttpBody.Read lib.gzipNewReader w with
        | (w1, Except.ok z) => (w1, Except.ok (ReadCloser.gzip z))
        | (w1, Except.error e) => (w1, Except.error e)
      else if r.Header.Get "content-encoding" = "br" then
        (w, Except.ok (ReadCloser.nopCloser lib.brotliNewReader))
      else
        (w, Except.ok ReadCloser.body)

/-- Loop of `io.Copy(ioutil.Discard, body)`: Reads into an 8 KiB buffer until the body
reports an error; `EOF` ends the copy without error.  Every Read of a body either hands
out a byte or reports an error, so `fuel` larger than the number of unread bytes is never
used up. -/
def discardLoop : Nat → HttpBody → HttpBody × error
  | 0, w => (w, none)
  | fuel + 1, w =>
    match (w.Read 8192).2.2 with
    | some e => ((w.Read 8192).1, if e = EOF then none else some e)
    | none => discardLoop fuel (w.Read 8192).1

/-- Call `io.Copy(ioutil.Discard, body)`. -/
def copyDiscard (w : HttpBody) : HttpBody × error :=
  discardLoop (w.data.length + 1) w

/-- Function `Close(res)`.  A nil `res` or a nil `res.Body` makes the first use of the body
a nil dereference. -/
def Close (res : Option Response) (w : HttpBody) : HttpBody × Ret error :=
  match res with
  | none => (w, Ret.panicked nilDereference)
  | some r =>
    match r.Body with
    | none => (w, Ret.panicked nilDereference)
    | some _ =>
      match copyDiscard w with
      | (w1, some e) => ((w1.Close).1, Ret.returned (some e))
      | (w1, none) =>
        match w1.Close with
        | (w2, some e) => (w2, Ret.returned (some e))
        | (w2, none) => (w2, Ret.returned none)

/-- Loop of `ioutil.ReadAll(rdr)`: Reads are appended until the stream reports an error;
`EOF` ends the loop without error.  Every Read is issued with the 512 bytes of the initial
buffer; the growth of the buffer in the library only changes the size of later Reads.  A
stream that never reports an error keeps the loop running: `none` says the loop was still
running when `fuel` Reads had been made. -/
def readAllLoop {Z B : Type} (lib : Lib Z B) :
    Nat → ReadCloser Z B × HttpBody → List Byte →
      Option ((ReadCloser Z B × HttpBody) × List Byte × error)
  | 0, _, _ => none
  | fuel + 1, s, acc =>
    match (ReadCloser.Read lib s 512).2.2 with
    | some e =>
      some ((ReadCloser.Read lib s 512).1, acc ++ (ReadCloser.Read lib s 512).2.1,
        if e = EOF then none else some e)
    | none =>
      readAllLoop lib fuel (ReadCloser.Read lib s 512).1 (acc ++ (ReadCloser.Read lib s 512).2.1)

/-- Call `ioutil.ReadAll(rdr)`. -/
def ReadAll {Z B : Type} (lib : Lib Z B) (fuel : Nat) (s : ReadCloser Z B × HttpBody) :
    Option ((ReadCloser Z B × HttpBody) × List Byte × error) :=
  readAllLoop lib fuel s []

/-- What a dispatch call leaves behind: the body state, how the call ended, and (ghost)
how many times code supplied by the caller was called. -/
structure Outcome (α : Type) where
  body : HttpBody
  ret : Ret α
  callerRuns : Nat

/-- The deferred call `Close(res)` at the exit of a dispatch operation that is about to
return `v`: the value `Close` returns is dropped, a panic of `Close` replaces the return. -/
def deferredClose {α : Type} (res : Option Response) (w : HttpBody) (v : α) (runs : Nat) :
    Outcome α :=
  match Close res w with
  | (w1, Ret.returned _) => ⟨w1, Ret.returned v, runs⟩
  | (w1, Ret.panicked m) => ⟨w1, Ret.panicked m, runs⟩

/-- Function `ReadBody(res)`; a nil byte slice is `none`.  The result is `none` when
`ioutil.ReadAll` is still running after `fuel` Reads. -/
def ReadBody {Z B : Type} (lib : Lib Z B) (fuel : Nat) (res : Option Response) (w : HttpBody) :
    Option (Outcome (Option (List Byte) × error)) :=
  match ReadCloserFor lib res w with
  | (w1, Except.error e) => some (deferredClose res w1 (none, some e) 0)
  | (w1, Except.ok rdr) =>
    match ReadAll lib fuel (rdr, w1) with
    | none => none
    | some (s, bytes, err) =>
      some (deferredClose res (ReadCloser.Close lib s.1 s.2).1 (some bytes, err) 0)

/-- Function `Parse(res, parser)`; the `*T` result is `none` for nil. -/
def Parse {Z B T : Type} (lib : Lib Z B) (res : Option Response) (parser : Prog (Option T))
    (w : HttpBody) : Outcome (Option T × error) :=
  match ReadCloserFor lib res w with
  | (w1, Except.error e) => deferredClose res w1 (none, some e) 0
  | (w1, Except.ok rdr) =>
    let s := Prog.run (ReadCloser.Read lib) parser (rdr, w1)
    deferredClose res (ReadCloser.Close lib s.1.1 s.1.2).1 (s.2, none) 1

/-- Function `ParseErr(res, parser)`. -/
def ParseErr {Z B T : Type} (lib : Lib Z B) (res : Option Response)
    (parser : Prog (Option T × error)) (w : HttpBody) : Outcome (Option T × error) :=
  match ReadCloserFor lib res w with
  | (w1, Except.error e) => deferredClose res w1 (none, some e) 0
  | (w1, Except.ok rdr) =>
    let s := Prog.run (ReadCloser.Read lib) parser (rdr, w1)
    deferredClose res (ReadCloser.Close lib s.1.1 s.1.2).1 s.2 1

/-- Function `ParseDoc(res)`: `ParseErr` with `htmlquery.Parse`, here the argument
`htmlParse`. -/
def ParseDoc {Z B N : Type} (lib : Lib Z B) (htmlParse : Prog (Option N × error))
    (res : Option Response) (w : HttpBody) : Outcome (Option N × error) :=
  ParseErr lib res htmlParse w

/-- Interface `Decoder` as implemented by the type `D`: `Decode(obj)` reads from the stream
the decoder was built on, may write to the memory `M` that `obj` points into, and returns
an error. -/
structure Decoder (D M : Type) where
  Decode : D → Ptr → M → Prog (M × error)

/-- Function `Decode(newDecoder, res, obj)`: the outcome and the caller memory afterwards. -/
def Decode {Z B D M : Type} (lib : Lib Z B) (dec : Decoder D M) (newDecoder : Prog D)
    (res : Option Response) (obj : Ptr) (m : M) (w : HttpBody) : Outcome (Ptr × error) × M :=
  match ReadCloserFor lib res w with
  | (w1, Except.error e) => (deferredClose res w1 (none, some e) 0, m)
  | (w1, Except.ok rdr) =>
    let d := Prog.run (ReadCloser.Read lib) newDecoder (rdr, w1)
    let t := Prog.run (ReadCloser.Read lib) (dec.Decode d.2 obj m) d.1
    match t.2.2 with
    | some e => (deferredClose res (ReadCloser.Close lib t.1.1 t.1.2).1 (none, some e) 2, t.2.1)
    | none => (deferredClose res (ReadCloser.Close lib t.1.1 t.1.2).1 (obj, none) 2, t.2.1)

/-- Function `Decode_(newDecoder, res, obj)`. -/
def Decode_ {Z B D M : Type} (lib : Lib Z B) (dec : Decoder D M) (newDecoder : Prog D)
    (res : Option Response) (obj : Ptr) (m : M) (w : HttpBody) : Outcome error × M :=
  match Decode lib dec newDecoder res obj m w with
  | (⟨w1, Ret.returned v, runs⟩, m1) => (⟨w1, Ret.returned v.2, runs⟩, m1)
  | (⟨w1, Ret.panicked msg, runs⟩, m1) => (⟨w1, Ret.panicked msg, runs⟩, m1)

/-! ## A small library instance for concrete runs -/

/-- How `compress/gzip` obtains the ten bytes of the fixed member header: `io.ReadFull`
through the 4096-byte buffered reader it puts in front of `r`.  Returns everything taken
from `r` and the error of `io.ReadFull`. -/
def gzipFill : Nat → List Byte → Prog (List Byte × error)
  | 0, acc => Prog.ret (acc, some ErrNoProgress)
  | fuel + 1, acc =>
    Prog.read 4096 fun r =>
      if 10 ≤ (acc ++ r.1).length then Prog.ret (acc ++ r.1, none)
      else
        match r.2 with
        | some e =>
          Prog.ret (acc ++ r.1, some (if acc ++ r.1 ≠ [] ∧ e = EOF then ErrUnexpectedEOF else e))
        | none =>
          if r.1 = [] then Prog.ret (acc ++ r.1, some ErrNoProgress) else gzipFill fuel (acc ++ r.1)

/-- The part of `gzip.NewReader` up to the fixed member header: the ten bytes are read and
the identification bytes `1f 8b` and the method `08` are checked, `gzip.ErrHeader` being the
error when they are wrong.  The state of the reader is what its buffer holds beyond the
header.  The optional fields that the flag byte can announce after the fixed header are not
read here. -/
def sampleGzipNewReader : Prog (Except GoError (List Byte)) :=
  Prog.bind (gzipFill 10 []) fun r =>
    match r.2 with
    | some e => Prog.ret (Except.error e)
    | none =>
      if r.1.take 3 = [0x1f, 0x8b, 8] then Prog.ret (Except.ok (r.1.drop 10))
      else Prog.ret (Except.error ErrHeader)

/-- An instance of `Lib` for concrete runs.  The gzip constructor is `sampleGzipNewReader`;
the brotli constructor only allocates.  Inflating is not part of the instance: both Read
methods hand on the stored bytes as they are. -/
def sampleLib : Lib (List Byte) Unit where
  gzipNewReader := sampleGzipNewReader
  gzipRead := fun z n =>
    if z = [] then Prog.read n fun r => Prog.ret ([], r.1, r.2)
    else Prog.ret (z.drop n, z.take n, none)
  gzipClose := fun _ => none
  brotliNewReader := ()
  brotliRead := fun _ n => Prog.read n fun r => Prog.ret ((), r.1, r.2)

/-- The instance `sampleLib` with a gzip constructor that reads nothing and accepts every
body. -/
def lazyLib : Lib (List Byte) Unit :=
  { sampleLib with gzipNewReader := Prog.ret (Except.ok []) }

/-- A response whose only header is `Content-Encoding: enc`, with a body. -/
def responseWith (enc : String) : Response :=
  ⟨⟨[("Content-Encoding", [enc])]⟩, some ()⟩

/-- A response without any header, with a body. -/
def plainResponse : Response := ⟨⟨[]⟩, some ()⟩

/-- A decoder for concrete runs: it takes up to four bytes from the stream and stores their
number at the target; a nil target or a stream error is its error. -/
def sampleDecoder : Decoder Unit Nat where
  Decode := fun _ obj m =>
    Prog.read 4 fun r =>
      match obj, r.2 with
      | none, _ => Prog.ret (m, some ⟨"nil target"⟩)
      | some _, some e => Prog.ret (m, if e = EOF then none else some e)
      | some _, none => Prog.ret (r.1.length, none)

/-! ## Reads leave the close state alone -/

theorem ReadsOnly.refl (a : HttpBody) : ReadsOnly a a :=
  ⟨rfl, rfl, rfl, rfl, rfl, rfl⟩

theorem ReadsOnly.trans {a b c : HttpBody} (h₁ : ReadsOnly a b) (h₂ : ReadsOnly b c) :
    ReadsOnly a c := by
  obtain ⟨h1, h2, h3, h4, h5, h6⟩ := h₁
  obtain ⟨k1, k2, k3, k4, k5, k6⟩ := h₂
  exact ⟨k1.trans h1, k2.trans h2, k3.trans h3, k4.trans h4, k5.trans h5, k6.trans h6⟩

theorem HttpBody.Read_readsOnly (w : HttpBody) (n : Nat) : ReadsOnly w (w.Read n).1 := by
  unfold HttpBody.Read
  split
  · simp [ReadsOnly, HttpBody.closeCalls, HttpBody.consumed]
  · split
    · simp [ReadsOnly, HttpBody.closeCalls, HttpBody.consumed]
    · simp [ReadsOnly, HttpBody.closeCalls, HttpBody.consumed, List.append_assoc]

theorem Prog.run_readsOnly {α : Type} (p : Prog α) (w : HttpBody) :
    ReadsOnly w (Prog.run HttpBody.Read p w).1 := by
  induction p generalizing w with
  | ret a => exact ReadsOnly.refl w
  | read n k ih =>
    simp only [Prog.run]
    exact (HttpBody.Read_readsOnly w n).trans (ih _ _)

theorem ReadCloser.Read_stream_readsOnly {Z B : Type} (lib : Lib Z B) (s : ReadCloser Z B × HttpBody)
    (n : Nat) : ReadsOnly s.2 (ReadCloser.Read lib s n).1.2 := by
  obtain ⟨rdr, w⟩ := s
  cases rdr with
  | body => exact HttpBody.Read_readsOnly w n
  | gzip z => exact Prog.run_readsOnly _ w
  | nopCloser b => exact Prog.run_readsOnly _ w

theorem Prog.run_stream_readsOnly {Z B α : Type} (lib : Lib Z B) (p : Prog α)
    (s : ReadCloser Z B × HttpBody) :
    ReadsOnly s.2 (Prog.run (ReadCloser.Read lib) p s).1.2 := by
  induction p generalizing s with
  | ret a => exact ReadsOnly.refl s.2
  | read n k ih =>
    simp only [Prog.run]
    exact (ReadCloser.Read_stream_readsOnly lib s n).trans (ih _ _)

theorem readAllLoop_readsOnly {Z B : Type} (lib : Lib Z B) (fuel : Nat)
    (s t : ReadCloser Z B × HttpBody) (acc bytes : List Byte) (err : error)
    (h : readAllLoop lib fuel s acc = some (t, bytes, err)) : ReadsOnly s.2 t.2 := by
  induction fuel generalizing s acc with
  | zero => simp [readAllLoop] at h
  | succ fuel ih =>
    unfold readAllLoop at h
    split at h
    · simp only [Option.some.injEq, Prod.mk.injEq] at h
      rw [← h.1]
      exact ReadCloser.Read_stream_readsOnly lib s 512
    · exact (ReadCloser.Read_stream_readsOnly lib s 512).trans (ih _ _ h)

theorem ReadCloserFor_readsOnly {Z B : Type} (lib : Lib Z B) (res : Option Response)
    (w : HttpBody) : ReadsOnly w (ReadCloserFor lib res w).1 := by
  unfold ReadCloserFor
  split
  · exact ReadsOnly.refl w
  · split
    · exact ReadsOnly.refl w
    · split
      · have h := Prog.run_readsOnly lib.gzipNewReader w
        split <;> simp_all
      · split <;> exact ReadsOnly.refl w

/-! ## The drain `io.Copy(ioutil.Discard, body)` -/

theorem HttpBody.Read_of_closed (w : HttpBody) (n : Nat) (h : (w.closed && w.strict) = true) :
    w.Read n = ({ w with log := w.log ++ [Event.readErr errReadOnClosedBody] }, [],
      some errReadOnClosedBody) := by
  simp [HttpBody.Read, h]

theorem HttpBody.Read_of_empty (w : HttpBody) (n : Nat) (h : (w.closed && w.strict) = false)
    (hd : w.data = []) :
    w.Read n = ({ w with log := w.log ++ [Event.readErr w.endErr] }, [], some w.endErr) := by
  simp [HttpBody.Read, h, hd]

theorem HttpBody.Read_of_data (w : HttpBody) (n : Nat) (h : (w.closed && w.strict) = false)
    (hd : w.data ≠ []) :
    w.Read n = ({ w with data := w.data.drop n, log := w.log ++ [Event.read (w.data.take n)] },
      w.data.take n, none) := by
  simp [HttpBody.Read, h, hd]

theorem discardLoop_readsOnly (fuel : Nat) (w : HttpBody) :
    ReadsOnly w (discardLoop fuel w).1 := by
  induction fuel generalizing w with
  | zero => exact ReadsOnly.refl w
  | succ fuel ih =>
    unfold discardLoop
    split
    · exact HttpBody.Read_readsOnly w 8192
    · exact (HttpBody.Read_readsOnly w 8192).trans (ih _)

theorem HttpBody.Read_log (w : HttpBody) (n : Nat) :
    ∃ evs, (w.Read n).1.log = w.log ++ evs ∧ Event.close ∉ evs := by
  unfold HttpBody.Read
  split
  · exact ⟨_, rfl, by simp⟩
  · split
    · exact ⟨_, rfl, by simp⟩
    · exact ⟨_, rfl, by simp⟩

theorem discardLoop_log (fuel : Nat) (w : HttpBody) :
    ∃ evs, (discardLoop fuel w).1.log = w.log ++ evs ∧ Event.close ∉ evs := by
  induction fuel generalizing w with
  | zero => exact ⟨[], by simp [discardLoop], by simp⟩
  | succ fuel ih =>
    unfold discardLoop
    split
    · exact HttpBody.Read_log w 8192
    · obtain ⟨e1, h1, n1⟩ := HttpBody.Read_log w 8192
      obtain ⟨e2, h2, n2⟩ := ih (w.Read 8192).1
      refine ⟨e1 ++ e2, ?_, ?_⟩
      · rw [h2, h1, List.append_assoc]
      · simp [n1, n2]

theorem discardLoop_of_closed (fuel : Nat) (w : HttpBody) (h : (w.closed && w.strict) = true) :
    discardLoop (fuel + 1) w =
      ({ w with log := w.log ++ [Event.readErr errReadOnClosedBody] },
        some errReadOnClosedBody) := by
  have hne : errReadOnClosedBody ≠ EOF := by decide
  simp [discardLoop, HttpBody.Read_of_closed w 8192 h, hne]

theorem discardLoop_of_open (fuel : Nat) (w : HttpBody) (hf : w.data.length < fuel)
    (h : (w.closed && w.strict) = false) :
    (discardLoop fuel w).1.data = [] ∧
      (discardLoop fuel w).2 = if w.endErr = EOF then none else some w.endErr := by
  induction fuel generalizing w with
  | zero => omega
  | succ fuel ih =>
    by_cases hd : w.data = []
    · unfold discardLoop
      rw [HttpBody.Read_of_empty w 8192 h hd]
      simp [hd]
    · unfold discardLoop
      rw [HttpBody.Read_of_data w 8192 h hd]
      simp only
      have hlen : (w.data.drop 8192).length < fuel := by
        have : 0 < w.data.length := List.length_pos.mpr hd
        simp only [List.length_drop]
        omega
      exact ih { w with data := w.data.drop 8192, log := w.log ++ [Event.read (w.data.take 8192)] }
        hlen h

theorem copyDiscard_readsOnly (w : HttpBody) : ReadsOnly w (copyDiscard w).1 :=
  discardLoop_readsOnly _ w

theorem copyDiscard_of_open (w : HttpBody) (h : (w.closed && w.strict) = false) :
    (copyDiscard w).1.data = [] ∧
      (copyDiscard w).2 = if w.endErr = EOF then none else some w.endErr :=
  discardLoop_of_open _ w (Nat.lt_succ_self _) h

/-- Fuel beyond the number of unread bytes is never used. -/
theorem discardLoop_fuel_irrelevant (f g : Nat) (w : HttpBody) (hf : w.data.length < f)
    (hg : w.data.length < g) : discardLoop f w = discardLoop g w := by
  induction f generalizing g w with
  | zero => omega
  | succ f ih =>
    cases g with
    | zero => omega
    | succ g =>
      by_cases h : (w.closed && w.strict) = true
      · rw [discardLoop_of_closed f w h, discardLoop_of_closed g w h]
      · have h0 : (w.closed && w.strict) = false := by simpa using h
        by_cases hd : w.data = []
        · unfold discardLoop
          rw [HttpBody.Read_of_empty w 8192 h0 hd]
        · have hpos : 0 < w.data.length := List.length_pos.mpr hd
          unfold discardLoop
          rw [HttpBody.Read_of_data w 8192 h0 hd]
          simp only
          apply ih
          · simp only [List.length_drop]
            omega
          · simp only [List.length_drop]
            omega

/-- More fuel than the bound used by `copyDiscard` changes nothing: the bound is enough. -/
theorem discardLoop_fuel (fuel : Nat) (w : HttpBody) (hf : w.data.length < fuel) :
    discardLoop fuel w = copyDiscard w :=
  discardLoop_fuel_irrelevant fuel _ w hf (Nat.lt_succ_self _)

/-! ## `Close` and the deferred calls -/

theorem Close_present (r : Response) (w : HttpBody) (hb : r.Body = some ()) :
    Close (some r) w = (((copyDiscard w).1.Close).1,
      Ret.returned (match (copyDiscard w).2 with
        | some e => some e
        | none => w.closeErr)) := by
  have hce : (copyDiscard w).1.closeErr = w.closeErr := (copyDiscard_readsOnly w).2.2.1
  unfold Close
  simp only [hb]
  rcases hc : copyDiscard w with ⟨w1, _ | e⟩
  · rw [hc] at hce
    simp only at hce
    simp only [HttpBody.Close, hce]
    cases hw : w.closeErr <;> simp
  · simp

theorem deferredClose_present {α : Type} (r : Response) (w : HttpBody) (v : α) (runs : Nat)
    (hb : r.Body = some ()) :
    deferredClose (some r) w v runs = ⟨((copyDiscard w).1.Close).1, Ret.returned v, runs⟩ := by
  unfold deferredClose
  rw [Close_present r w hb]

theorem ReadCloserFor_ok_present {Z B : Type} (lib : Lib Z B) (res : Option Response)
    (w w1 : HttpBody) (rdr : ReadCloser Z B) (h : ReadCloserFor lib res w = (w1, Except.ok rdr)) :
    ∃ r, res = some r ∧ r.Body = some () := by
  unfold ReadCloserFor at h
  cases res with
  | none => simp at h
  | some r =>
    cases hb : r.Body with
    | none => simp [hb] at h
    | some u => exact ⟨r, rfl, hb⟩

theorem Close_log (r : Response) (w : HttpBody) (hb : r.Body = some ()) :
    ∃ evs, (Close (some r) w).1.log = w.log ++ evs ++ [Event.close] ∧ Event.close ∉ evs ∧
      (copyDiscard w).1.log = w.log ++ evs := by
  obtain ⟨evs, h1, h2⟩ := discardLoop_log (w.data.length + 1) w
  refine ⟨evs, ?_, h2, h1⟩
  rw [Close_present r w hb]
  simp only [HttpBody.Close]
  unfold copyDiscard
  rw [h1]

theorem Close_closeCalls (r : Response) (w : HttpBody) (hb : r.Body = some ()) :
    (Close (some r) w).1.closeCalls = w.closeCalls + 1 ∧ (Close (some r) w).1.closed = true := by
  have h := (copyDiscard_readsOnly w).2.1
  rw [Close_present r w hb]
  simp only [HttpBody.Close, HttpBody.closeCalls] at h ⊢
  simp [h]

theorem Close_drained (r : Response) (w : HttpBody) (hb : r.Body = some ())
    (h : (w.closed && w.strict) = false) :
    (Close (some r) w).1.data = [] ∧ (Close (some r) w).1.consumed = w.consumed ++ w.data := by
  have h1 := (copyDiscard_of_open w h).1
  have h2 := (copyDiscard_readsOnly w).2.2.2.2.2
  rw [Close_present r w hb]
  simp only [HttpBody.Close, HttpBody.consumed] at h2 ⊢
  rw [h1, List.append_nil] at h2
  refine ⟨h1, ?_⟩
  simpa using h2

/-! ## Encoding resolution -/

theorem ReadCloserFor_identity {Z B : Type} (lib : Lib Z B) (r : Response)
    (w : HttpBody) (hb : r.Body = some ())
    (hg : r.Header.Get "content-encoding" ≠ "gzip")
    (hbr : r.Header.Get "content-encoding" ≠ "br") :
    ReadCloserFor lib (some r) w = (w, Except.ok ReadCloser.body) := by
  simp [ReadCloserFor, hb, hg, hbr]

/-- Claim C4: for a response with a body whose content-encoding value is neither exactly
gzip nor exactly br (absent header, empty value, another spelling, another scheme, a list),
`ReadCloserFor` returns the body itself as the stream, without an error, and leaves the
body as it was. -/
theorem ReadCloserFor_passes_body_through {Z B : Type} (lib : Lib Z B) (r : Response)
    (w : HttpBody) (hb : r.Body = some ())
    (hg : r.Header.Get "content-encoding" ≠ "gzip")
    (hbr : r.Header.Get "content-encoding" ≠ "br") :
    ReadCloserFor lib (some r) w = (w, Except.ok ReadCloser.body) := by
  simp [ReadCloserFor, hb, hg, hbr]

/-- Instances of C4: no header at all, the empty value, upper case, deflate, and a list of
two encodings. -/
theorem ReadCloserFor_passes_body_through_witness :
    ReadCloserFor sampleLib (some plainResponse) (HttpBody.fresh [1, 2] EOF none true)
        = (HttpBody.fresh [1, 2] EOF none true, Except.ok ReadCloser.body) ∧
      ReadCloserFor sampleLib (some (responseWith "")) (HttpBody.fresh [1, 2] EOF none true)
        = (HttpBody.fresh [1, 2] EOF none true, Except.ok ReadCloser.body) ∧
      ReadCloserFor sampleLib (some (responseWith "GZIP")) (HttpBody.fresh [1, 2] EOF none true)
        = (HttpBody.fresh [1, 2] EOF none true, Except.ok ReadCloser.body) ∧
      ReadCloserFor sampleLib (some (responseWith "deflate")) (HttpBody.fresh [1, 2] EOF none true)
        = (HttpBody.fresh [1, 2] EOF none true, Except.ok ReadCloser.body) ∧
      ReadCloserFor sampleLib (some (responseWith "gzip, br")) (HttpBody.fresh [1, 2] EOF none true)
        = (HttpBody.fresh [1, 2] EOF none true, Except.ok ReadCloser.body) :=
  ⟨ReadCloserFor_passes_body_through sampleLib plainResponse _ rfl (by decide) (by decide),
    ReadCloserFor_passes_body_through sampleLib (responseWith "") _ rfl (by decide) (by decide),
    ReadCloserFor_passes_body_through sampleLib (responseWith "GZIP") _ rfl (by decide)
      (by decide),
    ReadCloserFor_passes_body_through sampleLib (responseWith "deflate") _ rfl (by decide)
      (by decide),
    ReadCloserFor_passes_body_through sampleLib (responseWith "gzip, br") _ rfl (by decide)
      (by decide)⟩

/-- Claim C10, as amended: on a response with a body, `ReadCloserFor` leaves the body
exactly as it was for every content-encoding value other than gzip (br included: the
brotli reader is only allocated); for gzip the body is left where `gzip.NewReader` left it,
and that constructor reads the member header before it returns. -/
theorem ReadCloserFor_reads_only_for_gzip {Z B : Type} (lib : Lib Z B) (r : Response)
    (w : HttpBody) (hb : r.Body = some ()) :
    (r.Header.Get "content-encoding" ≠ "gzip" → (ReadCloserFor lib (some r) w).1 = w) ∧
      (r.Header.Get "content-encoding" = "gzip" →
        (ReadCloserFor lib (some r) w).1 = (Prog.run HttpBody.Read lib.gzipNewReader w).1) := by
  constructor
  · intro hg
    unfold ReadCloserFor
    simp only [hb, hg, if_false]
    split <;> rfl
  · intro hg
    unfold ReadCloserFor
    simp only [hb, hg, if_true]
    split <;> simp_all

/-- Instance of the amended C10 for br and for gzip. -/
theorem ReadCloserFor_reads_only_for_gzip_witness :
    (responseWith "br").Body = some () ∧
      (ReadCloserFor sampleLib (some (responseWith "br"))
        (HttpBody.fresh [0x1f, 0x8b, 8, 0, 0, 0, 0, 0, 0, 255, 7, 7] EOF none true)).1
        = HttpBody.fresh [0x1f, 0x8b, 8, 0, 0, 0, 0, 0, 0, 255, 7, 7] EOF none true :=
  ⟨rfl, (ReadCloserFor_reads_only_for_gzip sampleLib (responseWith "br")
    (HttpBody.fresh [0x1f, 0x8b, 8, 0, 0, 0, 0, 0, 0, 255, 7, 7] EOF none true) rfl).1
      (by decide)⟩

/-- Claim C10 fails for gzip: on a body that starts with a well-formed gzip member header,
`ReadCloserFor` has taken bytes from the body by the time it returns, so the read position
is not the one before the call. -/
theorem ReadCloserFor_gzip_moves_read_position :
    (ReadCloserFor sampleLib (some (responseWith "gzip"))
        (HttpBody.fresh [0x1f, 0x8b, 8, 0, 0, 0, 0, 0, 0, 255, 7, 7] EOF none true)).1.consumed
      ≠ (HttpBody.fresh [0x1f, 0x8b, 8, 0, 0, 0, 0, 0, 0, 255, 7, 7] EOF none true).consumed ∧
    (ReadCloserFor sampleLib (some (responseWith "gzip"))
        (HttpBody.fresh [0x1f, 0x8b, 8, 0, 0, 0, 0, 0, 0, 255, 7, 7] EOF none true)).1.data.length
      < (HttpBody.fresh [0x1f, 0x8b, 8, 0, 0, 0, 0, 0, 0, 255, 7, 7] EOF none true).data.length := by
  decide

/-! ## `Close` -/

/-- Claim C8: on a response with a body, `Close` first runs the copy to the discard sink
and then calls the body Close exactly once (the Close is the last event, after the Reads of
the copy, none of which is a Close; a body whose Reads still work has handed out every
remaining byte); when the copy reports an error, that error is returned whatever the body
Close returned; when the copy succeeds, the result is exactly what the body Close
returned. -/
theorem Close_copies_then_closes_once (r : Response) (w : HttpBody) (hb : r.Body = some ()) :
    (∃ evs, (copyDiscard w).1.log = w.log ++ evs ∧ Event.close ∉ evs ∧
        (Close (some r) w).1.log = w.log ++ evs ++ [Event.close]) ∧
      (Close (some r) w).1.closeCalls = w.closeCalls + 1 ∧
      ((w.closed && w.strict) = false →
        (Close (some r) w).1.data = [] ∧ (Close (some r) w).1.consumed = w.consumed ++ w.data) ∧
      (∀ e, (copyDiscard w).2 = some e → (Close (some r) w).2 = Ret.returned (some e)) ∧
      ((copyDiscard w).2 = none →
        (Close (some r) w).2 = Ret.returned ((copyDiscard w).1.Close).2) := by
  refine ⟨?_, (Close_closeCalls r w hb).1, Close_drained r w hb, ?_, ?_⟩
  · obtain ⟨evs, h1, h2, h3⟩ := Close_log r w hb
    exact ⟨evs, h3, h2, h1⟩
  · intro e he
    rw [Close_present r w hb, he]
  · intro he
    have hce : (copyDiscard w).1.closeErr = w.closeErr := (copyDiscard_readsOnly w).2.2.1
    rw [Close_present r w hb, he]
    simp [HttpBody.Close, hce]

/-- Instance of C8: a body with a read fault and a failing Close; the read fault is what
`Close` returns, after one body Close. -/
theorem Close_copies_then_closes_once_witness :
    plainResponse.Body = some () ∧
      (Close (some plainResponse)
        (HttpBody.fresh [1, 2, 3] ⟨"reset"⟩ (some ⟨"close failed"⟩) true)).2
          = Ret.returned (some ⟨"reset"⟩) ∧
      (Close (some plainResponse)
        (HttpBody.fresh [1, 2, 3] ⟨"reset"⟩ (some ⟨"close failed"⟩) true)).1.closeCalls
          = 0 + 1 :=
  ⟨rfl,
    (Close_copies_then_closes_once plainResponse
      (HttpBody.fresh [1, 2, 3] ⟨"reset"⟩ (some ⟨"close failed"⟩) true) rfl).2.2.2.1 _
        (by decide),
    (Close_copies_then_closes_once plainResponse
      (HttpBody.fresh [1, 2, 3] ⟨"reset"⟩ (some ⟨"close failed"⟩) true) rfl).2.1⟩

/-! ## The dispatch operations when encoding resolution succeeds -/

theorem deferredClose_ok {α : Type} (r : Response) (w : HttpBody) (v : α) (runs : Nat)
    (hb : r.Body = some ()) :
    deferredClose (some r) w v runs = ⟨(Close (some r) w).1, Ret.returned v, runs⟩ := by
  rw [deferredClose_present r w v runs hb, Close_present r w hb]

theorem Parse_ok {Z B T : Type} (lib : Lib Z B) (res : Option Response)
    (parser : Prog (Option T)) (w w1 : HttpBody) (rdr : ReadCloser Z B)
    (h : ReadCloserFor lib res w = (w1, Except.ok rdr)) :
    Parse lib res parser w =
      ⟨(Close res (ReadCloser.Close lib (Prog.run (ReadCloser.Read lib) parser (rdr, w1)).1.1
          (Prog.run (ReadCloser.Read lib) parser (rdr, w1)).1.2).1).1,
        Ret.returned ((Prog.run (ReadCloser.Read lib) parser (rdr, w1)).2, none), 1⟩ := by
  obtain ⟨r, rfl, hb⟩ := ReadCloserFor_ok_present lib res w w1 rdr h
  unfold Parse
  rw [h]
  simp only
  rw [deferredClose_ok r _ _ _ hb]

theorem ParseErr_ok {Z B T : Type} (lib : Lib Z B) (res : Option Response)
    (parser : Prog (Option T × error)) (w w1 : HttpBody) (rdr : ReadCloser Z B)
    (h : ReadCloserFor lib res w = (w1, Except.ok rdr)) :
    ParseErr lib res parser w =
      ⟨(Close res (ReadCloser.Close lib (Prog.run (ReadCloser.Read lib) parser (rdr, w1)).1.1
          (Prog.run (ReadCloser.Read lib) parser (rdr, w1)).1.2).1).1,
        Ret.returned (Prog.run (ReadCloser.Read lib) parser (rdr, w1)).2, 1⟩ := by
  obtain ⟨r, rfl, hb⟩ := ReadCloserFor_ok_present lib res w w1 rdr h
  unfold ParseErr
  rw [h]
  simp only
  rw [deferredClose_ok r _ _ _ hb]

theorem Decode_ok {Z B D M : Type} (lib : Lib Z B) (dec : Decoder D M) (newDecoder : Prog D)
    (res : Option Response) (obj : Ptr) (m : M) (w w1 : HttpBody) (rdr : ReadCloser Z B)
    (h : ReadCloserFor lib res w = (w1, Except.ok rdr)) :
    Decode lib dec newDecoder res obj m w =
      (⟨(Close res (ReadCloser.Close lib (Prog.run (ReadCloser.Read lib)
            (dec.Decode (Prog.run (ReadCloser.Read lib) newDecoder (rdr, w1)).2 obj m)
            (Prog.run (ReadCloser.Read lib) newDecoder (rdr, w1)).1).1.1
          (Prog.run (ReadCloser.Read lib)
            (dec.Decode (Prog.run (ReadCloser.Read lib) newDecoder (rdr, w1)).2 obj m)
            (Prog.run (ReadCloser.Read lib) newDecoder (rdr, w1)).1).1.2).1).1,
        Ret.returned (match (Prog.run (ReadCloser.Read lib)
            (dec.Decode (Prog.run (ReadCloser.Read lib) newDecoder (rdr, w1)).2 obj m)
            (Prog.run (ReadCloser.Read lib) newDecoder (rdr, w1)).1).2.2 with
          | some e => (none, some e)
          | none => (obj, none)), 2⟩,
        (Prog.run (ReadCloser.Read lib)
            (dec.Decode (Prog.run (ReadCloser.Read lib) newDecoder (rdr, w1)).2 obj m)
            (Prog.run (ReadCloser.Read lib) newDecoder (rdr, w1)).1).2.1) := by
  obtain ⟨r, rfl, hb⟩ := ReadCloserFor_ok_present lib res w w1 rdr h
  unfold Decode
  rw [h]
  simp only
  split <;> rw [deferredClose_ok r _ _ _ hb]

theorem ReadBody_ok {Z B : Type} (lib : Lib Z B) (fuel : Nat) (res : Option Response)
    (w w1 : HttpBody) (rdr : ReadCloser Z B) (s : ReadCloser Z B × HttpBody)
    (bytes : List Byte) (err : error)
    (h : ReadCloserFor lib res w = (w1, Except.ok rdr))
    (ha : ReadAll lib fuel (rdr, w1) = some (s, bytes, err)) :
    ReadBody lib fuel res w =
      some ⟨(Close res (ReadCloser.Close lib s.1 s.2).1).1, Ret.returned (some bytes, err), 0⟩ := by
  obtain ⟨r, rfl, hb⟩ := ReadCloserFor_ok_present lib res w w1 rdr h
  unfold ReadBody
  rw [h]
  simp only
  rw [ha]
  simp only
  rw [deferredClose_ok r _ _ _ hb]

/-! ## Raw bytes of an unencoded body -/

theorem readAllLoop_body {Z B : Type} (lib : Lib Z B) (fuel : Nat) (w : HttpBody)
    (acc : List Byte) (hf : w.data.length < fuel) (h : (w.closed && w.strict) = false)
    (he : w.endErr = EOF) :
    ∃ w1, readAllLoop lib fuel (ReadCloser.body, w) acc
      = some ((ReadCloser.body, w1), acc ++ w.data, none) := by
  induction fuel generalizing w acc with
  | zero => omega
  | succ fuel ih =>
    have hr : ReadCloser.Read lib (ReadCloser.body, w) 512
        = ((ReadCloser.body, (w.Read 512).1), (w.Read 512).2) := rfl
    by_cases hd : w.data = []
    · unfold readAllLoop
      rw [hr, HttpBody.Read_of_empty w 512 h hd]
      simp [hd, he]
    · unfold readAllLoop
      rw [hr, HttpBody.Read_of_data w 512 h hd]
      simp only
      have hlen : (w.data.drop 512).length < fuel := by
        have : 0 < w.data.length := List.length_pos.mpr hd
        simp only [List.length_drop]
        omega
      obtain ⟨w1, h1⟩ := ih
        { w with data := w.data.drop 512, log := w.log ++ [Event.read (w.data.take 512)] }
        (acc ++ w.data.take 512) hlen h he
      refine ⟨w1, ?_⟩
      rw [h1]
      simp [List.append_assoc]

/-- Claim C5: for a response with a body and no content-encoding indicator, when the body
is open and its Reads end with a clean end of stream, `ReadBody` returns (with any fuel
above the number of unread bytes) exactly the bytes of the body, all of them and in order,
with a nil error. -/
theorem ReadBody_returns_body_bytes {Z B : Type} (lib : Lib Z B) (r : Response) (w : HttpBody)
    (fuel : Nat) (hb : r.Body = some ()) (henc : r.Header.Get "content-encoding" = "")
    (hopen : w.closed = false) (hend : w.endErr = EOF) (hfuel : w.data.length < fuel) :
    ∃ o, ReadBody lib fuel (some r) w = some o ∧ o.ret = Ret.returned (some w.data, none) := by
  have hg : r.Header.Get "content-encoding" ≠ "gzip" := by rw [henc]; decide
  have hbr : r.Header.Get "content-encoding" ≠ "br" := by rw [henc]; decide
  have h := ReadCloserFor_identity lib r w hb hg hbr
  obtain ⟨w1, h1⟩ := readAllLoop_body lib fuel w [] hfuel (by simp [hopen]) hend
  refine ⟨_, ReadBody_ok lib fuel (some r) w w ReadCloser.body _ _ _ h h1, ?_⟩
  simp

/-- Instance of C5: three bytes, no header. -/
theorem ReadBody_returns_body_bytes_witness :
    plainResponse.Body = some () ∧ plainResponse.Header.Get "content-encoding" = "" ∧
      ∃ o, ReadBody sampleLib 4 (some plainResponse) (HttpBody.fresh [10, 20, 30] EOF none true)
          = some o ∧ o.ret = Ret.returned (some [10, 20, 30], none) :=
  ⟨rfl, by decide,
    ReadBody_returns_body_bytes sampleLib plainResponse
      (HttpBody.fresh [10, 20, 30] EOF none true) 4 rfl (by decide) rfl rfl (by decide)⟩

/-! ## Results of the caller's code -/

/-- Claim C7: whenever encoding resolution succeeds, `ParseErr` returns exactly the pair
the parser returned on the decoded stream.  For `Decode`, let the decoder be the one that
`newDecoder` builds on the decoded stream and run its `Decode(obj)` on the stream that
construction left: when that run returns the error `e`, `Decode` returns a nil pointer with
that very `e`; when it returns no error, `Decode` returns the pointer `obj` itself with a nil
error; and the caller memory afterwards is the one that run wrote. -/
theorem caller_result_returned_unchanged {Z B : Type} (lib : Lib Z B) (res : Option Response)
    (w w1 : HttpBody) (rdr : ReadCloser Z B)
    (h : ReadCloserFor lib res w = (w1, Except.ok rdr)) :
    (∀ (T : Type) (parser : Prog (Option T × error)),
        (ParseErr lib res parser w).ret
          = Ret.returned (Prog.run (ReadCloser.Read lib) parser (rdr, w1)).2) ∧
      (∀ (D M : Type) (dec : Decoder D M) (newDecoder : Prog D) (obj : Ptr) (m : M),
        (∀ e, (Prog.run (ReadCloser.Read lib)
            (dec.Decode (Prog.run (ReadCloser.Read lib) newDecoder (rdr, w1)).2 obj m)
            (Prog.run (ReadCloser.Read lib) newDecoder (rdr, w1)).1).2.2 = some e →
          (Decode lib dec newDecoder res obj m w).1.ret = Ret.returned (none, some e)) ∧
        ((Prog.run (ReadCloser.Read lib)
            (dec.Decode (Prog.run (ReadCloser.Read lib) newDecoder (rdr, w1)).2 obj m)
            (Prog.run (ReadCloser.Read lib) newDecoder (rdr, w1)).1).2.2 = none →
          (Decode lib dec newDecoder res obj m w).1.ret = Ret.returned (obj, none)) ∧
        (Decode lib dec newDecoder res obj m w).2
          = (Prog.run (ReadCloser.Read lib)
            (dec.Decode (Prog.run (ReadCloser.Read lib) newDecoder (rdr, w1)).2 obj m)
            (Prog.run (ReadCloser.Read lib) newDecoder (rdr, w1)).1).2.1) := by
  refine ⟨?_, ?_⟩
  · intro T parser
    rw [ParseErr_ok lib res parser w w1 rdr h]
  · intro D M dec newDecoder obj m
    rw [Decode_ok lib dec newDecoder res obj m w w1 rdr h]
    refine ⟨?_, ?_, rfl⟩
    · intro e he
      simp only [he]
    · intro he
      simp only [he]

/-- Instances of C7 on an unencoded body: a parser that fails after reading two bytes, a
decoder that fails on a nil target, and a decoder that succeeds and returns the target. -/
theorem caller_result_returned_unchanged_witness :
    ReadCloserFor sampleLib (some plainResponse) (HttpBody.fresh [1, 2, 3] EOF none true)
        = (HttpBody.fresh [1, 2, 3] EOF none true, Except.ok ReadCloser.body) ∧
      (ParseErr sampleLib (some plainResponse)
          (Prog.read 2 fun _ => Prog.ret ((none : Option Nat), some ⟨"bad input"⟩))
          (HttpBody.fresh [1, 2, 3] EOF none true)).ret
        = Ret.returned (none, some ⟨"bad input"⟩) ∧
      (Decode sampleLib sampleDecoder (Prog.ret ()) (some plainResponse) none 0
          (HttpBody.fresh [1, 2, 3] EOF none true)).1.ret
        = Ret.returned (none, some ⟨"nil target"⟩) ∧
      (Decode sampleLib sampleDecoder (Prog.ret ()) (some plainResponse) (some 5) 0
          (HttpBody.fresh [1, 2, 3] EOF none true)).1.ret
        = Ret.returned (some 5, none) ∧
      (Decode sampleLib sampleDecoder (Prog.ret ()) (some plainResponse) (some 5) 0
          (HttpBody.fresh [1, 2, 3] EOF none true)).2 = 3 :=
  ⟨rfl,
    (caller_result_returned_unchanged sampleLib (some plainResponse)
      (HttpBody.fresh [1, 2, 3] EOF none true) (HttpBody.fresh [1, 2, 3] EOF none true)
      ReadCloser.body rfl).1 Nat _,
    ((caller_result_returned_unchanged sampleLib (some plainResponse)
      (HttpBody.fresh [1, 2, 3] EOF none true) (HttpBody.fresh [1, 2, 3] EOF none true)
      ReadCloser.body rfl).2 Unit Nat sampleDecoder (Prog.ret ()) none 0).1 ⟨"nil target"⟩ rfl,
    ((caller_result_returned_unchanged sampleLib (some plainResponse)
      (HttpBody.fresh [1, 2, 3] EOF none true) (HttpBody.fresh [1, 2, 3] EOF none true)
      ReadCloser.body rfl).2 Unit Nat sampleDecoder (Prog.ret ()) (some 5) 0).2.1 rfl,
    ((caller_result_returned_unchanged sampleLib (some plainResponse)
      (HttpBody.fresh [1, 2, 3] EOF none true) (HttpBody.fresh [1, 2, 3] EOF none true)
      ReadCloser.body rfl).2 Unit Nat sampleDecoder (Prog.ret ()) (some 5) 0).2.2⟩

/-! ## Errors of the deferred cleanup -/

/-- Claim C9 fails.  First run: br response, the parser reads nothing, the body has a read
fault after three bytes; the drain of the deferred `Close` reports the fault, yet `Parse`
returns a nil error.  Second run: unencoded response whose body Close fails; the deferred
Close calls report errors, yet `ReadBody` returns the bytes with a nil error. -/
theorem cleanup_error_is_lost :
    ((copyDiscard (HttpBody.fresh [1, 2, 3] ⟨"connection reset"⟩ none true)).2
        = some ⟨"connection reset"⟩ ∧
      (Parse sampleLib (some (responseWith "br")) (Prog.ret (some 7))
          (HttpBody.fresh [1, 2, 3] ⟨"connection reset"⟩ none true)).ret
        = Ret.returned (some 7, none)) ∧
    ((HttpBody.Close (HttpBody.fresh [] EOF (some ⟨"close failed"⟩) true)).2
        = some ⟨"close failed"⟩ ∧
      (ReadBody sampleLib 4 (some plainResponse)
          (HttpBody.fresh [1, 2, 3] EOF (some ⟨"close failed"⟩) true)).map (fun o => o.ret)
        = some (Ret.returned (some [1, 2, 3], none))) := by
  decide

/-- Claim C9, as amended: when encoding resolution succeeds, every dispatch operation
returns what the caller's logic produced (`Parse`: the parser's pointer and a nil error;
`ParseErr`: the parser's pair; `Decode`: a nil pointer and the error that `Decode(obj)` of
the decoder built by `newDecoder` returned on the decoded stream, or `obj` and nil when it
returned none; `ReadBody`: the pair of `ioutil.ReadAll`) after the deferred `rdr.Close()`
and `Close(res)` have run on the body; the values those two deferred calls return, an error
of the final drain or of a close among them, are not part of what the operation returns. -/
theorem dispatch_returns_caller_result_only {Z B : Type} (lib : Lib Z B)
    (res : Option Response) (w w1 : HttpBody) (rdr : ReadCloser Z B)
    (h : ReadCloserFor lib res w = (w1, Except.ok rdr)) :
    (∀ (T : Type) (parser : Prog (Option T)),
        Parse lib res parser w =
          ⟨(Close res (ReadCloser.Close lib
              (Prog.run (ReadCloser.Read lib) parser (rdr, w1)).1.1
              (Prog.run (ReadCloser.Read lib) parser (rdr, w1)).1.2).1).1,
            Ret.returned ((Prog.run (ReadCloser.Read lib) parser (rdr, w1)).2, none), 1⟩) ∧
      (∀ (T : Type) (parser : Prog (Option T × error)),
        ParseErr lib res parser w =
          ⟨(Close res (ReadCloser.Close lib
              (Prog.run (ReadCloser.Read lib) parser (rdr, w1)).1.1
              (Prog.run (ReadCloser.Read lib) parser (rdr, w1)).1.2).1).1,
            Ret.returned (Prog.run (ReadCloser.Read lib) parser (rdr, w1)).2, 1⟩) ∧
      (∀ (D M : Type) (dec : Decoder D M) (newDecoder : Prog D) (obj : Ptr) (m : M),
        (Decode lib dec newDecoder res obj m w).1 =
          ⟨(Close res (ReadCloser.Close lib
              (Prog.run (ReadCloser.Read lib)
            (dec.Decode (Prog.run (ReadCloser.Read lib) newDecoder (rdr, w1)).2 obj m)
            (Prog.run (ReadCloser.Read lib) newDecoder (rdr, w1)).1).1.1
              (Prog.run (ReadCloser.Read lib)
            (dec.Decode (Prog.run (ReadCloser.Read lib) newDecoder (rdr, w1)).2 obj m)
            (Prog.run (ReadCloser.Read lib) newDecoder (rdr, w1)).1).1.2).1).1,
            Ret.returned (match (Prog.run (ReadCloser.Read lib)
            (dec.Decode (Prog.run (ReadCloser.Read lib) newDecoder (rdr, w1)).2 obj m)
            (Prog.run (ReadCloser.Read lib) newDecoder (rdr, w1)).1).2.2 with
              | some e => (none, some e)
              | none => (obj, none)), 2⟩) ∧
      (∀ (fuel : Nat) (s : ReadCloser Z B × HttpBody) (bytes : List Byte) (err : error),
        ReadAll lib fuel (rdr, w1) = some (s, bytes, err) →
          ReadBody lib fuel res w =
            some ⟨(Close res (ReadCloser.Close lib s.1 s.2).1).1,
              Ret.returned (some bytes, err), 0⟩) := by
  refine ⟨?_, ?_, ?_, ?_⟩
  · intro T parser
    exact Parse_ok lib res parser w w1 rdr h
  · intro T parser
    exact ParseErr_ok lib res parser w w1 rdr h
  · intro D M dec newDecoder obj m
    rw [Decode_ok lib dec newDecoder res obj m w w1 rdr h]
  · intro fuel s bytes err ha
    exact ReadBody_ok lib fuel res w w1 rdr s bytes err h ha

/-- Instances of the amended C9 on a br response whose body has a read fault after three
bytes, so that the final drain reports an error: `Parse` with a parser that reads nothing,
`Decode` with a decoder that fails on a nil target, and `Decode` with a decoder that
succeeds. -/
theorem dispatch_returns_caller_result_only_witness :
    ReadCloserFor sampleLib (some (responseWith "br"))
        (HttpBody.fresh [1, 2, 3] ⟨"connection reset"⟩ none true)
      = (HttpBody.fresh [1, 2, 3] ⟨"connection reset"⟩ none true,
          Except.ok (ReadCloser.nopCloser ())) ∧
    (Parse sampleLib (some (responseWith "br")) (Prog.ret (some 7))
        (HttpBody.fresh [1, 2, 3] ⟨"connection reset"⟩ none true)).ret
      = Ret.returned (some 7, none) ∧
    (Decode sampleLib sampleDecoder (Prog.ret ()) (some (responseWith "br")) none 0
        (HttpBody.fresh [1, 2, 3] ⟨"connection reset"⟩ none true)).1.ret
      = Ret.returned (none, some ⟨"nil target"⟩) ∧
    (Decode sampleLib sampleDecoder (Prog.ret ()) (some (responseWith "br")) (some 5) 0
        (HttpBody.fresh [1, 2, 3] ⟨"connection reset"⟩ none true)).1.ret
      = Ret.returned (some 5, none) :=
  ⟨rfl,
    congrArg Outcome.ret
      ((dispatch_returns_caller_result_only sampleLib (some (responseWith "br"))
        (HttpBody.fresh [1, 2, 3] ⟨"connection reset"⟩ none true)
        (HttpBody.fresh [1, 2, 3] ⟨"connection reset"⟩ none true)
        (ReadCloser.nopCloser ()) rfl).1 Nat (Prog.ret (some 7))),
    congrArg Outcome.ret
      ((dispatch_returns_caller_result_only sampleLib (some (responseWith "br"))
        (HttpBody.fresh [1, 2, 3] ⟨"connection reset"⟩ none true)
        (HttpBody.fresh [1, 2, 3] ⟨"connection reset"⟩ none true)
        (ReadCloser.nopCloser ()) rfl).2.2.1 Unit Nat sampleDecoder (Prog.ret ()) none 0),
    congrArg Outcome.ret
      ((dispatch_returns_caller_result_only sampleLib (some (responseWith "br"))
        (HttpBody.fresh [1, 2, 3] ⟨"connection reset"⟩ none true)
        (HttpBody.fresh [1, 2, 3] ⟨"connection reset"⟩ none true)
        (ReadCloser.nopCloser ()) rfl).2.2.1 Unit Nat sampleDecoder (Prog.ret ()) (some 5) 0)⟩

/-! ## A gzip stream that cannot be initialised -/

/-- Claim C6: on a response with a body and content-encoding gzip for which
`gzip.NewReader` fails with `e`, each of `ReadBody`, `Parse`, `ParseErr` and `Decode`
returns a nil result together with `e`, calls no code of the caller (the run count is 0
and the caller memory is untouched), and ends after `Close(res)` has run on the body the
constructor left: the body is closed, by exactly one Close call, which is the last event,
and a body that was still readable has handed out every byte. -/
theorem gzip_init_failure_short_circuits {Z B : Type} (lib : Lib Z B) (r : Response)
    (w w1 : HttpBody) (e : GoError) (hb : r.Body = some ())
    (henc : r.Header.Get "content-encoding" = "gzip")
    (hz : Prog.run HttpBody.Read lib.gzipNewReader w = (w1, Except.error e)) :
    (∀ fuel, ReadBody lib fuel (some r) w
        = some ⟨(Close (some r) w1).1, Ret.returned (none, some e), 0⟩) ∧
      (∀ (T : Type) (parser : Prog (Option T)), Parse lib (some r) parser w
        = ⟨(Close (some r) w1).1, Ret.returned (none, some e), 0⟩) ∧
      (∀ (T : Type) (parser : Prog (Option T × error)), ParseErr lib (some r) parser w
        = ⟨(Close (some r) w1).1, Ret.returned (none, some e), 0⟩) ∧
      (∀ (D M : Type) (dec : Decoder D M) (newDecoder : Prog D) (obj : Ptr) (m : M),
        Decode lib dec newDecoder (some r) obj m w
          = (⟨(Close (some r) w1).1, Ret.returned (none, some e), 0⟩, m)) ∧
      (Close (some r) w1).1.closed = true ∧
      (Close (some r) w1).1.closeCalls = w.closeCalls + 1 ∧
      (∃ evs, (Close (some r) w1).1.log = evs ++ [Event.close]) ∧
      ((w.closed && w.strict) = false →
        (Close (some r) w1).1.data = [] ∧
          (Close (some r) w1).1.consumed = w.consumed ++ w.data) := by
  have hrc : ReadCloserFor lib (some r) w = (w1, Except.error e) := by
    unfold ReadCloserFor
    simp only [hb, henc, if_true]
    rw [hz]
  have hro : ReadsOnly w w1 := by
    have := Prog.run_readsOnly lib.gzipNewReader w
    rwa [hz] at this
  obtain ⟨hc, hcc, _, hs, _, hcd⟩ := hro
  refine ⟨?_, ?_, ?_, ?_, (Close_closeCalls r w1 hb).2, ?_, ?_, ?_⟩
  · intro fuel
    unfold ReadBody
    rw [hrc]
    simp only
    rw [deferredClose_ok r _ _ _ hb]
  · intro T parser
    unfold Parse
    rw [hrc]
    simp only
    rw [deferredClose_ok r _ _ _ hb]
  · intro T parser
    unfold ParseErr
    rw [hrc]
    simp only
    rw [deferredClose_ok r _ _ _ hb]
  · intro D M dec newDecoder obj m
    unfold Decode
    rw [hrc]
    simp only
    rw [deferredClose_ok r _ _ _ hb]
  · rw [(Close_closeCalls r w1 hb).1, hcc]
  · obtain ⟨evs, h1, _, _⟩ := Close_log r w1 hb
    exact ⟨w1.log ++ evs, h1⟩
  · intro hopen
    have h1 : (w1.closed && w1.strict) = false := by rw [hc, hs]; exact hopen
    obtain ⟨hd, hcons⟩ := Close_drained r w1 hb h1
    exact ⟨hd, by rw [hcons, hcd]⟩

/-- Instance of C6: eleven bytes that do not start with the gzip identification. -/
theorem gzip_init_failure_short_circuits_witness :
    (responseWith "gzip").Body = some () ∧
      (responseWith "gzip").Header.Get "content-encoding" = "gzip" ∧
      Prog.run HttpBody.Read sampleLib.gzipNewReader
          (HttpBody.fresh [0, 0, 0, 0, 0, 0, 0, 0, 0, 0, 9] EOF none true)
        = ((Prog.run HttpBody.Read sampleLib.gzipNewReader
            (HttpBody.fresh [0, 0, 0, 0, 0, 0, 0, 0, 0, 0, 9] EOF none true)).1,
          Except.error ErrHeader) ∧
      Parse sampleLib (some (responseWith "gzip")) (Prog.ret (some 7))
          (HttpBody.fresh [0, 0, 0, 0, 0, 0, 0, 0, 0, 0, 9] EOF none true)
        = ⟨(Close (some (responseWith "gzip"))
            (Prog.run HttpBody.Read sampleLib.gzipNewReader
              (HttpBody.fresh [0, 0, 0, 0, 0, 0, 0, 0, 0, 0, 9] EOF none true)).1).1,
          Ret.returned (none, some ErrHeader), 0⟩ :=
  ⟨rfl, by decide, rfl,
    (gzip_init_failure_short_circuits sampleLib (responseWith "gzip")
      (HttpBody.fresh [0, 0, 0, 0, 0, 0, 0, 0, 0, 0, 9] EOF none true) _ ErrHeader rfl
      (by decide) rfl).2.1 Nat (Prog.ret (some 7))⟩

/-! ## A response without a body -/

/-- Claim C3 fails: on a response whose `Body` is nil every dispatch operation panics.
`ReadCloserFor` does return its error and no code of the caller runs, but the `Close(res)`
deferred before that check then uses the nil body, so the call ends in a nil dereference
instead of returning the error.  The body state is untouched. -/
theorem nil_body_makes_dispatch_panic {Z B : Type} (lib : Lib Z B) (hdr : HttpHeader)
    (w : HttpBody) :
    (∀ fuel, ReadBody lib fuel (some ⟨hdr, none⟩) w
        = some ⟨w, Ret.panicked nilDereference, 0⟩) ∧
      (∀ (T : Type) (parser : Prog (Option T)), Parse lib (some ⟨hdr, none⟩) parser w
        = ⟨w, Ret.panicked nilDereference, 0⟩) ∧
      (∀ (T : Type) (parser : Prog (Option T × error)), ParseErr lib (some ⟨hdr, none⟩) parser w
        = ⟨w, Ret.panicked nilDereference, 0⟩) ∧
      (∀ (D M : Type) (dec : Decoder D M) (newDecoder : Prog D) (obj : Ptr) (m : M),
        Decode lib dec newDecoder (some ⟨hdr, none⟩) obj m w
          = (⟨w, Ret.panicked nilDereference, 0⟩, m)) ∧
      (∀ (D M : Type) (dec : Decoder D M) (newDecoder : Prog D) (obj : Ptr) (m : M),
        Decode_ lib dec newDecoder (some ⟨hdr, none⟩) obj m w
          = (⟨w, Ret.panicked nilDereference, 0⟩, m)) ∧
      ReadCloserFor lib (some ⟨hdr, none⟩) w = (w, Except.error errNilBody) := by
  refine ⟨?_, ?_, ?_, ?_, ?_, rfl⟩
  · intro fuel; rfl
  · intro T parser; rfl
  · intro T parser; rfl
  · intro D M dec newDecoder obj m; rfl
  · intro D M dec newDecoder obj m; rfl

/-! ## An unencoded body: the stream is the body -/

/-- Claim C1 fails on a response without content-encoding: the deferred `rdr.Close()`
closes the body, which is the stream, and the deferred `Close(res)` closes it again.  Each
of the four dispatch operations leaves a body that has seen two Close calls. -/
theorem unencoded_body_is_closed_twice :
    (ReadBody sampleLib 4 (some plainResponse) (HttpBody.fresh [1, 2, 3] EOF none true)).map
        (fun o => o.body.closeCalls) = some 2 ∧
      (Parse sampleLib (some plainResponse) (Prog.ret (some 7))
        (HttpBody.fresh [1, 2, 3] EOF none true)).body.closeCalls = 2 ∧
      (ParseErr sampleLib (some plainResponse) (Prog.ret (some 7, none))
        (HttpBody.fresh [1, 2, 3] EOF none true)).body.closeCalls = 2 ∧
      (Decode sampleLib sampleDecoder (Prog.ret ()) (some plainResponse) (some 0) 0
        (HttpBody.fresh [1, 2, 3] EOF none true)).1.body.closeCalls = 2 := by
  decide

/-- Claim C2 fails on a response without content-encoding whose body refuses Reads after
Close: the deferred `rdr.Close()` closes the body before the deferred `Close(res)` drains
it, so the drain gets an error at its first Read and the bytes the parser left are never
read.  With a parser that reads nothing all three bytes stay unread; with a parser that
reads one byte the other two stay unread. -/
theorem unencoded_body_is_not_drained :
    (Parse sampleLib (some plainResponse) (Prog.ret (some 7))
        (HttpBody.fresh [1, 2, 3] EOF none true)).body.data = [1, 2, 3] ∧
      (Parse sampleLib (some plainResponse) (Prog.ret (some 7))
        (HttpBody.fresh [1, 2, 3] EOF none true)).body.consumed = [] ∧
      (Parse sampleLib (some plainResponse) (Prog.ret (some 7))
        (HttpBody.fresh [1, 2, 3] EOF none true)).body.log
          = [Event.close, Event.readErr errReadOnClosedBody, Event.close] ∧
      (Parse sampleLib (some plainResponse) (Prog.read 1 fun _ => Prog.ret (some 7))
        (HttpBody.fresh [1, 2, 3] EOF none true)).body.data = [2, 3] ∧
      (ParseErr sampleLib (some plainResponse) (Prog.ret (some 7, none))
        (HttpBody.fresh [1, 2, 3] EOF none true)).body.data = [1, 2, 3] ∧
      (Decode sampleLib sampleDecoder (Prog.ret ()) (some plainResponse) (some 0) 0
        (HttpBody.fresh [1, 2, 3, 4, 5, 6] EOF none true)).1.body.data = [5, 6] := by
  decide

/-! ## Which stream the deferred `rdr.Close()` closes -/

theorem ReadCloser.Read_isBody {Z B : Type} (lib : Lib Z B) (s : ReadCloser Z B × HttpBody)
    (n : Nat) : (ReadCloser.Read lib s n).1.1.isBody = s.1.isBody := by
  obtain ⟨rdr, w⟩ := s
  cases rdr <;> rfl

theorem Prog.run_stream_isBody {Z B α : Type} (lib : Lib Z B) (p : Prog α)
    (s : ReadCloser Z B × HttpBody) :
    (Prog.run (ReadCloser.Read lib) p s).1.1.isBody = s.1.isBody := by
  induction p generalizing s with
  | ret a => rfl
  | read n k ih =>
    simp only [Prog.run]
    rw [ih, ReadCloser.Read_isBody]

theorem readAllLoop_isBody {Z B : Type} (lib : Lib Z B) (fuel : Nat)
    (s t : ReadCloser Z B × HttpBody) (acc bytes : List Byte) (err : error)
    (h : readAllLoop lib fuel s acc = some (t, bytes, err)) : t.1.isBody = s.1.isBody := by
  induction fuel generalizing s acc with
  | zero => simp [readAllLoop] at h
  | succ fuel ih =>
    unfold readAllLoop at h
    split at h
    · simp only [Option.some.injEq, Prod.mk.injEq] at h
      rw [← h.1]
      exact ReadCloser.Read_isBody lib s 512
    · rw [ih _ _ h, ReadCloser.Read_isBody]

theorem Decode_run_isBody {Z B D M : Type} (lib : Lib Z B) (dec : Decoder D M)
    (newDecoder : Prog D) (obj : Ptr) (m : M) (s : ReadCloser Z B × HttpBody) :
    (Prog.run (ReadCloser.Read lib)
      (dec.Decode (Prog.run (ReadCloser.Read lib) newDecoder s).2 obj m)
      (Prog.run (ReadCloser.Read lib) newDecoder s).1).1.1.isBody = s.1.isBody := by
  rw [Prog.run_stream_isBody, Prog.run_stream_isBody]

theorem Decode_run_readsOnly {Z B D M : Type} (lib : Lib Z B) (dec : Decoder D M)
    (newDecoder : Prog D) (obj : Ptr) (m : M) (s : ReadCloser Z B × HttpBody) :
    ReadsOnly s.2 (Prog.run (ReadCloser.Read lib)
      (dec.Decode (Prog.run (ReadCloser.Read lib) newDecoder s).2 obj m)
      (Prog.run (ReadCloser.Read lib) newDecoder s).1).1.2 :=
  (Prog.run_stream_readsOnly lib newDecoder s).trans (Prog.run_stream_readsOnly lib _ _)

theorem ReadCloser.Close_wrapped {Z B : Type} (lib : Lib Z B) (rdr : ReadCloser Z B)
    (w : HttpBody) (h : rdr.isBody = false) : (ReadCloser.Close lib rdr w).1 = w := by
  cases rdr with
  | body => simp [ReadCloser.isBody] at h
  | gzip z => rfl
  | nopCloser b => rfl

theorem ReadCloser.Close_body {Z B : Type} (lib : Lib Z B) (rdr : ReadCloser Z B)
    (w : HttpBody) (h : rdr.isBody = true) : ReadCloser.Close lib rdr w = w.Close := by
  cases rdr with
  | body => rfl
  | gzip z => simp [ReadCloser.isBody] at h
  | nopCloser b => simp [ReadCloser.isBody] at h

theorem Close_released (r : Response) (w v : HttpBody) (hb : r.Body = some ())
    (hro : ReadsOnly w v) : Released w (Close (some r) v).1 := by
  obtain ⟨hc, hcc, _, hs, _, hcd⟩ := hro
  refine ⟨(Close_closeCalls r v hb).2, ?_, ?_⟩
  · rw [(Close_closeCalls r v hb).1, hcc]
  · intro hopen
    have h1 : (v.closed && v.strict) = false := by rw [hc, hs]; exact hopen
    obtain ⟨hd, hcons⟩ := Close_drained r v hb h1
    exact ⟨hd, by rw [hcons, hcd]⟩

theorem Close_after_close (r : Response) (v : HttpBody) (hb : r.Body = some ()) :
    (Close (some r) (v.Close).1).1.closeCalls = v.closeCalls + 2 ∧
      (v.strict = true →
        (Close (some r) (v.Close).1).1.data = v.data ∧
          (Close (some r) (v.Close).1).1.consumed = v.consumed) := by
  constructor
  · rw [(Close_closeCalls r _ hb).1]
    simp [HttpBody.Close, HttpBody.closeCalls]
  · intro hs
    have hcl : ((v.Close).1.closed && (v.Close).1.strict) = true := by
      simp [HttpBody.Close, hs]
    rw [Close_present r _ hb]
    unfold copyDiscard
    rw [discardLoop_of_closed _ _ hcl]
    simp [HttpBody.Close, HttpBody.consumed]

theorem ReadCloserFor_wrapped {Z B : Type} (lib : Lib Z B) (r : Response) (w w1 : HttpBody)
    (rdr : ReadCloser Z B)
    (henc : r.Header.Get "content-encoding" = "gzip" ∨ r.Header.Get "content-encoding" = "br")
    (h : ReadCloserFor lib (some r) w = (w1, Except.ok rdr)) : rdr.isBody = false := by
  obtain ⟨r', hr, hb⟩ := ReadCloserFor_ok_present lib (some r) w w1 rdr h
  cases hr
  unfold ReadCloserFor at h
  simp only [hb] at h
  rcases henc with hg | hbr
  · simp only [hg, if_true] at h
    split at h
    · simp only [Prod.mk.injEq, Except.ok.injEq] at h
      rw [← h.2]; rfl
    · simp at h
  · have hne : ¬ ("br" = "gzip") := by decide
    simp only [hbr, hne, if_false, if_true, Prod.mk.injEq, Except.ok.injEq] at h
    rw [← h.2]; rfl

/-- On the gzip and br branches the lifecycle contract holds: when encoding resolution
succeeds with content-encoding gzip or br, each dispatch operation ends with the body
closed by exactly one Close call and, if the body was readable, with every byte read,
whatever the caller's logic read or returned.  (`ReadBody` ends once `ioutil.ReadAll`
does.) -/
theorem wrapped_stream_body_released {Z B : Type} (lib : Lib Z B) (r : Response)
    (w w1 : HttpBody) (rdr : ReadCloser Z B)
    (henc : r.Header.Get "content-encoding" = "gzip" ∨ r.Header.Get "content-encoding" = "br")
    (h : ReadCloserFor lib (some r) w = (w1, Except.ok rdr)) :
    (∀ (T : Type) (parser : Prog (Option T)), Released w (Parse lib (some r) parser w).body) ∧
      (∀ (T : Type) (parser : Prog (Option T × error)),
        Released w (ParseErr lib (some r) parser w).body) ∧
      (∀ (D M : Type) (dec : Decoder D M) (newDecoder : Prog D) (obj : Ptr) (m : M),
        Released w (Decode lib dec newDecoder (some r) obj m w).1.body) ∧
      (∀ (fuel : Nat) (o : Outcome (Option (List Byte) × error)),
        ReadBody lib fuel (some r) w = some o → Released w o.body) := by
  have hk := ReadCloserFor_wrapped lib r w w1 rdr henc h
  obtain ⟨r', hr, hb⟩ := ReadCloserFor_ok_present lib (some r) w w1 rdr h
  cases hr
  have h0 : ReadsOnly w w1 := by
    have := ReadCloserFor_readsOnly lib (some r) w
    rwa [h] at this
  refine ⟨?_, ?_, ?_, ?_⟩
  · intro T parser
    rw [Parse_ok lib (some r) parser w w1 rdr h]
    simp only
    rw [ReadCloser.Close_wrapped lib _ _ (by rw [Prog.run_stream_isBody]; exact hk)]
    exact Close_released r w _ hb (h0.trans (Prog.run_stream_readsOnly lib parser (rdr, w1)))
  · intro T parser
    rw [ParseErr_ok lib (some r) parser w w1 rdr h]
    simp only
    rw [ReadCloser.Close_wrapped lib _ _ (by rw [Prog.run_stream_isBody]; exact hk)]
    exact Close_released r w _ hb (h0.trans (Prog.run_stream_readsOnly lib parser (rdr, w1)))
  · intro D M dec newDecoder obj m
    rw [Decode_ok lib dec newDecoder (some r) obj m w w1 rdr h]
    simp only
    rw [ReadCloser.Close_wrapped lib _ _ (by rw [Decode_run_isBody]; exact hk)]
    exact Close_released r w _ hb
      (h0.trans (Decode_run_readsOnly lib dec newDecoder obj m (rdr, w1)))
  · intro fuel o ho
    unfold ReadBody at ho
    rw [h] at ho
    simp only at ho
    split at ho
    · simp at ho
    · rename_i s bytes err ha
      have hs : s.1.isBody = false := by
        rw [readAllLoop_isBody lib fuel (rdr, w1) s [] bytes err ha]; exact hk
      have hro : ReadsOnly w1 s.2 := readAllLoop_readsOnly lib fuel (rdr, w1) s [] bytes err ha
      simp only [Option.some.injEq] at ho
      subst ho
      rw [deferredClose_ok r _ _ _ hb, ReadCloser.Close_wrapped lib _ _ hs]
      exact Close_released r w _ hb (h0.trans hro)

/-- Instance: a br response whose parser reads one byte of three. -/
theorem wrapped_stream_body_released_witness :
    ((responseWith "br").Header.Get "content-encoding" = "gzip" ∨
        (responseWith "br").Header.Get "content-encoding" = "br") ∧
      Released (HttpBody.fresh [1, 2, 3] EOF none true)
        (Parse sampleLib (some (responseWith "br")) (Prog.read 1 fun _ => Prog.ret (some 7))
          (HttpBody.fresh [1, 2, 3] EOF none true)).body :=
  ⟨Or.inr (by decide),
    (wrapped_stream_body_released sampleLib (responseWith "br")
      (HttpBody.fresh [1, 2, 3] EOF none true) (HttpBody.fresh [1, 2, 3] EOF none true)
      (ReadCloser.nopCloser ()) (Or.inr (by decide)) rfl).1 Nat _⟩

/-- On the pass-through branch the lifecycle contract is broken for every input: when the
content-encoding is neither gzip nor br, each dispatch operation ends with two Close calls
on the body, and on a body that refuses Reads after Close the bytes the caller's logic
left unread stay unread. -/
theorem unencoded_stream_body_closed_twice {Z B : Type} (lib : Lib Z B) (r : Response)
    (w : HttpBody) (hb : r.Body = some ())
    (hg : r.Header.Get "content-encoding" ≠ "gzip")
    (hbr : r.Header.Get "content-encoding" ≠ "br") :
    (∀ (T : Type) (parser : Prog (Option T)),
        (Parse lib (some r) parser w).body.closeCalls = w.closeCalls + 2 ∧
          (w.strict = true → (Parse lib (some r) parser w).body.data
            = (Prog.run (ReadCloser.Read lib) parser (ReadCloser.body, w)).1.2.data)) ∧
      (∀ (T : Type) (parser : Prog (Option T × error)),
        (ParseErr lib (some r) parser w).body.closeCalls = w.closeCalls + 2 ∧
          (w.strict = true → (ParseErr lib (some r) parser w).body.data
            = (Prog.run (ReadCloser.Read lib) parser (ReadCloser.body, w)).1.2.data)) ∧
      (∀ (D M : Type) (dec : Decoder D M) (newDecoder : Prog D) (obj : Ptr) (m : M),
        (Decode lib dec newDecoder (some r) obj m w).1.body.closeCalls = w.closeCalls + 2 ∧
          (w.strict = true → (Decode lib dec newDecoder (some r) obj m w).1.body.data
            = (Prog.run (ReadCloser.Read lib)
            (dec.Decode (Prog.run (ReadCloser.Read lib) newDecoder (ReadCloser.body, w)).2 obj m)
            (Prog.run (ReadCloser.Read lib) newDecoder (ReadCloser.body, w)).1).1.2.data)) ∧
      (∀ (fuel : Nat) (o : Outcome (Option (List Byte) × error)),
        ReadBody lib fuel (some r) w = some o → o.body.closeCalls = w.closeCalls + 2) := by
  have h := ReadCloserFor_identity lib r w hb hg hbr
  refine ⟨?_, ?_, ?_, ?_⟩
  · intro T parser
    have hro := Prog.run_stream_readsOnly lib parser (ReadCloser.body, w)
    rw [Parse_ok lib (some r) parser w w ReadCloser.body h]
    simp only
    rw [ReadCloser.Close_body lib _ _ (by rw [Prog.run_stream_isBody]; rfl)]
    refine ⟨by rw [(Close_after_close r _ hb).1, hro.2.1], fun hs => ?_⟩
    exact ((Close_after_close r _ hb).2 (by rw [hro.2.2.2.1]; exact hs)).1
  · intro T parser
    have hro := Prog.run_stream_readsOnly lib parser (ReadCloser.body, w)
    rw [ParseErr_ok lib (some r) parser w w ReadCloser.body h]
    simp only
    rw [ReadCloser.Close_body lib _ _ (by rw [Prog.run_stream_isBody]; rfl)]
    refine ⟨by rw [(Close_after_close r _ hb).1, hro.2.1], fun hs => ?_⟩
    exact ((Close_after_close r _ hb).2 (by rw [hro.2.2.2.1]; exact hs)).1
  · intro D M dec newDecoder obj m
    have hro := Decode_run_readsOnly lib dec newDecoder obj m (ReadCloser.body, w)
    rw [Decode_ok lib dec newDecoder (some r) obj m w w ReadCloser.body h]
    simp only
    rw [ReadCloser.Close_body lib _ _ (by rw [Decode_run_isBody]; rfl)]
    refine ⟨by rw [(Close_after_close r _ hb).1, hro.2.1], fun hs => ?_⟩
    exact ((Close_after_close r _ hb).2 (by rw [hro.2.2.2.1]; exact hs)).1
  · intro fuel o ho
    unfold ReadBody at ho
    rw [h] at ho
    simp only at ho
    split at ho
    · simp at ho
    · rename_i s bytes err ha
      have hs : s.1.isBody = true := by
        rw [readAllLoop_isBody lib fuel (ReadCloser.body, w) s [] bytes err ha]; rfl
      have hro : ReadsOnly w s.2 :=
        readAllLoop_readsOnly lib fuel (ReadCloser.body, w) s [] bytes err ha
      simp only [Option.some.injEq] at ho
      subst ho
      rw [deferredClose_ok r _ _ _ hb, ReadCloser.Close_body lib _ _ hs,
        (Close_after_close r _ hb).1, hro.2.1]

/-- Instance: no header, a parser that reads one byte of three. -/
theorem unencoded_stream_body_closed_twice_witness :
    plainResponse.Body = some () ∧
      (Parse sampleLib (some plainResponse) (Prog.read 1 fun _ => Prog.ret (some 7))
        (HttpBody.fresh [1, 2, 3] EOF none true)).body.closeCalls = 0 + 2 :=
  ⟨rfl,
    ((unencoded_stream_body_closed_twice sampleLib plainResponse
      (HttpBody.fresh [1, 2, 3] EOF none true) rfl (by decide) (by decide)).1 Nat _).1⟩

/-! ## A constructor that validates must read -/

theorem HttpBody.Read_log_length (w : HttpBody) (n : Nat) :
    (w.Read n).1.log.length = w.log.length + 1 := by
  unfold HttpBody.Read
  split
  · simp
  · split <;> simp

theorem Prog.run_log_length {α : Type} (p : Prog α) (w : HttpBody) :
    w.log.length ≤ (Prog.run HttpBody.Read p w).1.log.length := by
  induction p generalizing w with
  | ret a => exact Nat.le_refl _
  | read n k ih =>
    simp only [Prog.run]
    have h1 := HttpBody.Read_log_length w n
    have h2 := ih (w.Read n).2 (w.Read n).1
    omega

theorem Prog.run_without_reads_is_constant {α : Type} (p : Prog α) (w : HttpBody)
    (h : (Prog.run HttpBody.Read p w).1 = w) :
    ∀ u v : HttpBody, (Prog.run HttpBody.Read p u).2 = (Prog.run HttpBody.Read p v).2 := by
  cases p with
  | ret a => intro u v; rfl
  | read n k =>
    exfalso
    have h1 := HttpBody.Read_log_length w n
    have h2 := Prog.run_log_length (k (w.Read n).2) (w.Read n).1
    have h3 : (Prog.run HttpBody.Read (Prog.read n k) w).1.log.length = w.log.length := by
      rw [h]
    simp only [Prog.run] at h3
    omega

theorem ReadCloserFor_gzip {Z B : Type} (lib : Lib Z B) (r : Response) (w : HttpBody)
    (hb : r.Body = some ()) (henc : r.Header.Get "content-encoding" = "gzip") :
    ReadCloserFor lib (some r) w =
      ((Prog.run HttpBody.Read lib.gzipNewReader w).1,
        match (Prog.run HttpBody.Read lib.gzipNewReader w).2 with
        | Except.ok z => Except.ok (ReadCloser.gzip z)
        | Except.error e => Except.error e) := by
  unfold ReadCloserFor
  simp only [hb, henc, if_true]
  rcases hrun : Prog.run HttpBody.Read lib.gzipNewReader w with ⟨w1, e | z⟩ <;> rfl

/-- Laziness and validation exclude each other: if `ReadCloserFor` on a gzip response
leaves some body exactly as it found it, then `gzip.NewReader` issues no Read at all, and
whether `ReadCloserFor` succeeds is the same for every body; it cannot reject a malformed
header.  A constructor that does reject one has read from the body by the time
`ReadCloserFor` returns. -/
theorem lazy_gzip_resolution_cannot_validate {Z B : Type} (lib : Lib Z B) (r : Response)
    (w : HttpBody) (hb : r.Body = some ())
    (henc : r.Header.Get "content-encoding" = "gzip")
    (h : (ReadCloserFor lib (some r) w).1 = w) :
    ∀ u v : HttpBody,
      (ReadCloserFor lib (some r) u).2.toBool = (ReadCloserFor lib (some r) v).2.toBool := by
  intro u v
  rw [ReadCloserFor_gzip lib r w hb henc] at h
  have hc := Prog.run_without_reads_is_constant lib.gzipNewReader w h u v
  rw [ReadCloserFor_gzip lib r u hb henc, ReadCloserFor_gzip lib r v hb henc]
  simp only [hc]

/-- Instance: a library whose gzip constructor accepts everything without reading. -/
theorem lazy_gzip_resolution_cannot_validate_witness :
    (ReadCloserFor lazyLib (some (responseWith "gzip"))
        (HttpBody.fresh [1, 2, 3] EOF none true)).1 = HttpBody.fresh [1, 2, 3] EOF none true ∧
      (ReadCloserFor lazyLib (some (responseWith "gzip"))
          (HttpBody.fresh [0x1f, 0x8b, 8, 0, 0, 0, 0, 0, 0, 255] EOF none true)).2.toBool
        = (ReadCloserFor lazyLib (some (responseWith "gzip"))
          (HttpBody.fresh [0, 0, 0] EOF none true)).2.toBool :=
  ⟨rfl, lazy_gzip_resolution_cannot_validate lazyLib (responseWith "gzip")
    (HttpBody.fresh [1, 2, 3] EOF none true) rfl (by decide) rfl _ _⟩

end Resreader
